import Mathlib

/-!
Verification development for the `opa` repository (package `agg` and friends).

The definitions below are a shallow embedding of the Go source:

* `Msg`, `Usage`, `StreamCfg`, `Provider`, `Response`, `Event` mirror
  `agg/core/message.go`, `agg/core/response.go`, `agg/core/model.go` and
  `agg/core/event.go`.
* `runRounds` / `agentRun` mirror the round loop of `Agent.Run`
  (`agg/agent.go`): the provider's behaviour in one round is abstracted as a
  `script` giving, for the request history and stream config of that round,
  the messages and usage of the round's final response together with the
  tool results collected for the round's tool calls (one `ToolResult`
  message is appended per collected result, in completion order, exactly as
  the Go loop does).
* `SQLiteStore.*` mirror `agg/store_sqlite.go` with its embedded
  `EphemeralStore` write-through cache (`agg/store_ephemeral.go`); the
  database is modelled as the two relations (messages per session, usage row
  per session), I/O errors are not modelled.
* `anthropic*` definitions mirror the messages-style adapter
  (`agg/anthropic/stream.go`, `agg/anthropic/model.go`): the SSE consume
  loop, `dispatchRawEvent`, `fromCoreMsgs` and `costFromUsage`.  JSON
  decoding of a frame is abstracted as an oracle `String → Option Asse`;
  `none` models a `json.Unmarshal` failure.  The consumer context is
  modelled by a send budget: `sendEvent` succeeds while the budget is
  positive, and a send against an exhausted budget models `ctx.Done()`.
* `openaiConsume` mirrors the responses-style adapter's consume loop
  (`agg/openai/stream.go`) in the same style.

Go panics (`panic`, out-of-range indexing) and `log.Fatalf` are modelled by
explicit abort outcomes; code paths that abort carry the information whether
deferred functions still run (they do for a Go panic, they do not for
`log.Fatalf`, which exits the process).
-/

/-- Message variants of `agg/core/message.go` (`Msg` with `MsgType` and the
four body structs `Reasoning`, `Content`, `ToolCall`, `ToolResult`). -/
inductive Msg where
  | reasoning (encrypted text : String)
  | content (role text : String)
  | toolCall (id name arguments : String)
  | toolResult (id result : String)
deriving DecidableEq, Repr

/-- Mirrors the Go test `msg.Type == core.MsgTypeReasoning`. -/
def Msg.isReasoning : Msg → Bool
  | .reasoning _ _ => true
  | _ => false

/-- Usage counters of `agg/core/response.go`; cost is in units of 10^-9 USD. -/
structure Usage where
  input : Int := 0
  cached : Int := 0
  output : Int := 0
  reasoning : Int := 0
  total : Int := 0
  cost : Int := 0
deriving DecidableEq, Repr

/-- The in-place accumulate `Usage.Inc` of `agg/core/response.go`. -/
def Usage.inc (u ou : Usage) : Usage :=
  { input := u.input + ou.input
    cached := u.cached + ou.cached
    output := u.output + ou.output
    reasoning := u.reasoning + ou.reasoning
    total := u.total + ou.total
    cost := u.cost + ou.cost }

/-- Provider discriminator of `agg/core/model.go`. -/
inductive Provider where
  | openai
  | anthropic
deriving DecidableEq, Repr

/-- Stream configuration of `agg/core/model.go`. -/
structure StreamCfg where
  disableTools : Bool := false
  detailedReasoning : Bool := false
deriving DecidableEq, Repr

/-- A full response (`agg/core/response.go`). -/
structure Response where
  model : String := ""
  usage : Usage := {}
  messages : List Msg := []
deriving DecidableEq, Repr

/-- Streaming events of `agg/core/event.go` (the `Event` struct collapsed to
its active payload per `EventType`); errors are carried as strings. -/
inductive Event where
  | deltaReason (delta : String)
  | delta (delta : String)
  | resp (response : Response)
  | toolCall (id name arguments : String)
  | error (err : String)
deriving DecidableEq, Repr

def Event.isError : Event → Bool
  | .error _ => true
  | _ => false

/-! ## Agent orchestrator (`agg/agent.go`) -/

/-- `agentRoundsMax` of `agg/agent.go`. -/
def agentRoundsMax : Nat := 4

/-- The steering prompt `toolCallLimitReachedPrompt` of `agg/agent.go`. -/
def toolCallLimitReachedPrompt : String :=
  "You have reached the maximum number of sequential tool call turns\nwithout an user interaction. Generate a user message this turn. If you need to make further tool\ncalls, just let the user know and once they respond, you can continue making more tool calls."

/-- What one round of a successful `Agent.Run` observes from the stream: the
messages and usage of the round's `FinalResponse`, and the tool results
collected for this round's `ToolCall` events (one pair `(id, result)` per
tool call, listed in completion order).  `toolResults.length` plays the role
of `toolCallCount`. -/
structure RoundOutcome where
  respMessages : List Msg
  respUsage : Usage
  toolResults : List (String × String)
deriving DecidableEq, Repr

/-- One `OpenStream` call as recorded by the round loop: the request history
and stream config that round was opened with. -/
structure RoundLog where
  request : List Msg
  cfg : StreamCfg
deriving DecidableEq, Repr

/-- The round loop of `Agent.Run` (`for round := range agentRoundsMax`),
driven by a `script` that abstracts the model's behaviour for one round.
`fuel` counts the iterations the `range` loop still has (the loop is entered
with `fuel = agentRoundsMax` and `round = 0`).  Returns the per-round
`OpenStream` log, the final working slice `msgs`, and the accumulated usage.
Mirrored control flow: on the last round the final-round policy either
appends the steering system message (OpenAI) or sets `DisableTools`
(Anthropic); after the stream, `resp.Messages` are appended and usage is
accumulated; if no tool call was seen the loop breaks, otherwise one
`ToolResult` message per collected result is appended and the loop
continues. -/
def runRounds (provider : Provider) (script : Nat → List Msg → StreamCfg → RoundOutcome) :
    Nat → Nat → List Msg → Usage → List RoundLog × List Msg × Usage
  | 0, _, msgs, usage => ([], msgs, usage)
  | fuel + 1, round, msgs, usage =>
    let st : List Msg × StreamCfg :=
      if round = agentRoundsMax - 1 then
        match provider with
        | .openai => (msgs ++ [Msg.content "system" toolCallLimitReachedPrompt], {})
        | .anthropic => (msgs, { disableTools := true })
      else (msgs, {})
    let outcome := script round st.1 st.2
    let log : RoundLog := ⟨st.1, st.2⟩
    let msgs1 := st.1 ++ outcome.respMessages
    let usage1 := usage.inc outcome.respUsage
    if outcome.toolResults.isEmpty then
      ([log], msgs1, usage1)
    else
      let msgs2 := msgs1 ++ outcome.toolResults.map fun p => Msg.toolResult p.1 p.2
      let rec3 := runRounds provider script fuel (round + 1) msgs2 usage1
      (log :: rec3.1, rec3.2.1, rec3.2.2)

/-- The persist loop at the end of `Agent.Run`: `msgsToStore := make(...)`,
then append every message of the working suffix whose type is not
`MsgTypeReasoning`. -/
def persistFilter (msgs : List Msg) : List Msg :=
  msgs.foldl (fun acc m => if m.isReasoning then acc else acc ++ [m]) []

/-- The result of a successful `Agent.Run`, as far as the store and the
model requests are concerned. -/
structure RunResult where
  boundary : Nat
  trace : List RoundLog
  finalMsgs : List Msg
  usage : Usage
  persisted : List Msg
deriving Repr

/-- `Agent.Run` of `agg/agent.go` for a successful execution: read the
stored history, remember the persist boundary, prepend the system prompt if
the session is empty, append the user message, run the round loop, and
persist the non-reasoning suffix from the boundary onward (the slice passed
to `Store.Extend`). -/
def agentRun (provider : Provider) (script : Nat → List Msg → StreamCfg → RoundOutcome)
    (stored : List Msg) (sysPrompt input : String) : RunResult :=
  let msgsStoreIdx := stored.length
  let msgs0 := if msgsStoreIdx = 0 then [Msg.content "system" sysPrompt] else stored
  let msgs1 := msgs0 ++ [Msg.content "user" input]
  let r := runRounds provider script agentRoundsMax 0 msgs1 {}
  { boundary := msgsStoreIdx
    trace := r.1
    finalMsgs := r.2.1
    usage := r.2.2
    persisted := persistFilter (r.2.1.drop msgsStoreIdx) }

/-- The append-if-not-reasoning loop is the order-preserving filter. -/
theorem persistFilter_eq_filter (msgs : List Msg) :
    persistFilter msgs = msgs.filter (fun m => !m.isReasoning) := by
  suffices h : ∀ acc, msgs.foldl (fun acc m => if m.isReasoning then acc else acc ++ [m]) acc
      = acc ++ msgs.filter (fun m => !m.isReasoning) by
    simpa [persistFilter] using h []
  induction msgs with
  | nil => intro acc; simp
  | cons m rest ih =>
    intro acc
    by_cases hm : m.isReasoning = true
    · simp [List.foldl_cons, hm, ih]
    · simp only [Bool.not_eq_true] at hm
      simp [List.foldl_cons, hm, ih, List.append_assoc]

/-- C1: for every successful `Agent.Run`, the slice handed to
`Store.Extend` is exactly the working slice from the persist boundary onward
with the Reasoning messages filtered out, in order; consequently it contains
no Reasoning message, so the messages newly persisted for the session are
reasoning-free. -/
theorem agentRun_persists_filtered_no_reasoning
    (provider : Provider) (script : Nat → List Msg → StreamCfg → RoundOutcome)
    (stored : List Msg) (sysPrompt input : String) :
    (agentRun provider script stored sysPrompt input).persisted
      = ((agentRun provider script stored sysPrompt input).finalMsgs.drop stored.length).filter
          (fun m => !m.isReasoning)
    ∧ (agentRun provider script stored sysPrompt input).persisted.countP
        (fun m => m.isReasoning) = 0 := by
  constructor
  · simp [agentRun, persistFilter_eq_filter]
  · simp only [agentRun, persistFilter_eq_filter]
    rw [List.countP_eq_zero]
    intro m hm
    have := List.of_mem_filter hm
    simpa using this

/-- C2: when the round loop opens a stream on a round other than the last,
it does so with the current working slice unmodified and a default config;
exactly on round `agentRoundsMax - 1` the final-round policy kicks in:
OpenAI gets the steering system message appended to the request history,
Anthropic gets `DisableTools = true`. -/
theorem runRounds_final_round_policy
    (provider : Provider) (script : Nat → List Msg → StreamCfg → RoundOutcome)
    (fuel round : Nat) (msgs : List Msg) (usage : Usage) :
    (round ≠ agentRoundsMax - 1 →
      (runRounds provider script (fuel + 1) round msgs usage).1.head?
        = some ⟨msgs, {}⟩)
    ∧ (round = agentRoundsMax - 1 → provider = .openai →
      (runRounds provider script (fuel + 1) round msgs usage).1.head?
        = some ⟨msgs ++ [Msg.content "system" toolCallLimitReachedPrompt], {}⟩)
    ∧ (round = agentRoundsMax - 1 → provider = .anthropic →
      (runRounds provider script (fuel + 1) round msgs usage).1.head?
        = some ⟨msgs, { disableTools := true }⟩) := by
  refine ⟨fun h => ?_, fun h hp => ?_, fun h hp => ?_⟩
  · simp only [runRounds, if_neg h]
    split <;> rfl
  · subst hp; simp only [runRounds, if_pos h]
    split <;> rfl
  · subst hp; simp only [runRounds, if_pos h]
    split <;> rfl

/-- Witness for `runRounds_final_round_policy` at a concrete script, on a
non-final round and on the final round for both providers. -/
theorem runRounds_final_round_policy_witness :
    ((runRounds .openai (fun _ _ _ => ⟨[], {}, []⟩) 3 1 [] {}).1.head?
        = some ⟨[], {}⟩)
    ∧ ((runRounds .openai (fun _ _ _ => ⟨[], {}, []⟩) 1 3 [] {}).1.head?
        = some ⟨[Msg.content "system" toolCallLimitReachedPrompt], {}⟩)
    ∧ ((runRounds .anthropic (fun _ _ _ => ⟨[], {}, []⟩) 1 3 [] {}).1.head?
        = some ⟨[], { disableTools := true }⟩) :=
  ⟨(runRounds_final_round_policy .openai (fun _ _ _ => ⟨[], {}, []⟩) 2 1 [] {}).1
      (by decide),
   (runRounds_final_round_policy .openai (fun _ _ _ => ⟨[], {}, []⟩) 0 3 [] {}).2.1
      rfl rfl,
   (runRounds_final_round_policy .anthropic (fun _ _ _ => ⟨[], {}, []⟩) 0 3 [] {}).2.2
      rfl rfl⟩

/-- A script whose model produces a tool call on rounds 0, 1, 2 and a plain
assistant reply on round 3, forcing the loop through all four rounds. -/
def scriptAllRounds : Nat → List Msg → StreamCfg → RoundOutcome :=
  fun round _ _ =>
    if round < 3 then ⟨[Msg.toolCall "c" "t" "args"], {}, [("c", "ok")]⟩
    else ⟨[Msg.content "assistant" "done"], {}, []⟩

/-- A session history already holding two persisted messages. -/
def storedTwo : List Msg :=
  [Msg.content "user" "hi", Msg.content "assistant" "hello"]

set_option maxRecDepth 8192 in
/-- Counterexample to C3: in a four-round OpenAI run, the final-round
steering system message IS among the messages persisted from the persist
boundary onward — the persist step only filters Reasoning messages, and the
steering message was appended to the same working slice that is persisted. -/
theorem steering_message_is_persisted_counterexample :
    Msg.content "system" toolCallLimitReachedPrompt
      ∈ (agentRun .openai scriptAllRounds storedTwo "sys" "go").persisted := by
  decide



/-- Unfolding equation for `runRounds` at zero fuel. -/
theorem runRounds_zero_def (p : Provider) (s : Nat → List Msg → StreamCfg → RoundOutcome)
    (round : Nat) (msgs : List Msg) (usage : Usage) :
    runRounds p s 0 round msgs usage = ([], msgs, usage) := rfl

/-- Unfolding equation for `runRounds` at positive fuel. -/
theorem runRounds_succ_def (p : Provider) (s : Nat → List Msg → StreamCfg → RoundOutcome)
    (fuel round : Nat) (msgs : List Msg) (usage : Usage) :
    runRounds p s (fuel + 1) round msgs usage =
      (let st : List Msg × StreamCfg :=
        if round = agentRoundsMax - 1 then
          match p with
          | .openai => (msgs ++ [Msg.content "system" toolCallLimitReachedPrompt], {})
          | .anthropic => (msgs, { disableTools := true })
        else (msgs, {})
      let outcome := s round st.1 st.2
      let log : RoundLog := ⟨st.1, st.2⟩
      let msgs1 := st.1 ++ outcome.respMessages
      let usage1 := usage.inc outcome.respUsage
      if outcome.toolResults.isEmpty then
        ([log], msgs1, usage1)
      else
        let msgs2 := msgs1 ++ outcome.toolResults.map fun p => Msg.toolResult p.1 p.2
        let rec3 := runRounds p s fuel (round + 1) msgs2 usage1
        (log :: rec3.1, rec3.2.1, rec3.2.2)) := rfl

/-- In a full-length OpenAI run of the round loop (one trace entry per unit
of fuel, so no early break), the steering system message is part of some
recorded request history, and it lies beyond the slice the loop started
from in the final working slice. -/
theorem runRounds_openai_steering (script : Nat → List Msg → StreamCfg → RoundOutcome) :
    ∀ (fuel round : Nat) (msgs : List Msg) (usage : Usage),
    1 ≤ fuel → round + fuel = agentRoundsMax →
    (runRounds .openai script fuel round msgs usage).1.length = fuel →
    (∃ l ∈ (runRounds .openai script fuel round msgs usage).1,
        Msg.content "system" toolCallLimitReachedPrompt ∈ l.request)
    ∧ Msg.content "system" toolCallLimitReachedPrompt
        ∈ (runRounds .openai script fuel round msgs usage).2.1.drop msgs.length := by
  have hA : agentRoundsMax = 4 := rfl
  intro fuel
  induction fuel with
  | zero => intro round msgs usage h1; omega
  | succ n ih =>
    intro round msgs usage _ hsum hlen
    by_cases hr : round = agentRoundsMax - 1
    · have hn : n = 0 := by omega
      subst hn
      rw [runRounds_succ_def]
      simp only [if_pos hr]
      split
      · refine ⟨⟨⟨msgs ++ [Msg.content "system" toolCallLimitReachedPrompt], {}⟩, by simp, by simp⟩, ?_⟩
        rw [List.append_assoc, List.drop_left]
        simp
      · rw [runRounds_zero_def]
        refine ⟨⟨⟨msgs ++ [Msg.content "system" toolCallLimitReachedPrompt], {}⟩, by simp, by simp⟩, ?_⟩
        rw [List.append_assoc, List.append_assoc, List.drop_left]
        simp
    · rw [runRounds_succ_def] at hlen ⊢
      simp only [if_neg hr] at hlen ⊢
      revert hlen
      split
      · intro hlen
        simp only [List.length_singleton] at hlen
        omega
      · intro hlen
        simp only [List.length_cons] at hlen
        have hlen2 : (runRounds .openai script n (round + 1)
            ((msgs ++ (script round msgs {}).respMessages)
              ++ List.map (fun p => Msg.toolResult p.1 p.2) (script round msgs {}).toolResults)
            (Usage.inc usage (script round msgs {}).respUsage)).1.length = n := by omega
        have hih := ih (round + 1) _ _ (by omega) (by omega) hlen2
        refine ⟨?_, ?_⟩
        · obtain ⟨l, hl, hsteer⟩ := hih.1
          exact ⟨l, List.mem_cons_of_mem _ hl, hsteer⟩
        · have hdrop := hih.2
          have heq : (runRounds .openai script n (round + 1)
              ((msgs ++ (script round msgs {}).respMessages)
                ++ List.map (fun p => Msg.toolResult p.1 p.2) (script round msgs {}).toolResults)
              (Usage.inc usage (script round msgs {}).respUsage)).2.1.drop
                (((msgs ++ (script round msgs {}).respMessages)
                  ++ List.map (fun p => Msg.toolResult p.1 p.2) (script round msgs {}).toolResults).length)
              = ((runRounds .openai script n (round + 1)
                  ((msgs ++ (script round msgs {}).respMessages)
                    ++ List.map (fun p => Msg.toolResult p.1 p.2) (script round msgs {}).toolResults)
                  (Usage.inc usage (script round msgs {}).respUsage)).2.1.drop msgs.length).drop
                ((((msgs ++ (script round msgs {}).respMessages)
                  ++ List.map (fun p => Msg.toolResult p.1 p.2) (script round msgs {}).toolResults).length)
                  - msgs.length) := by
            rw [List.drop_drop]
            congr 1
            have : msgs.length ≤ ((msgs ++ (script round msgs {}).respMessages)
                ++ List.map (fun p => Msg.toolResult p.1 p.2) (script round msgs {}).toolResults).length := by
              simp
            omega
          rw [heq] at hdrop
          exact List.drop_subset _ _ hdrop

/-- C3 (amended): the final-round steering system message injected for the
OpenAI provider is NOT transient: in every successful run that reaches the
final round (all `agentRoundsMax` rounds were opened), it appears in the
request history of the last round and it IS among the messages persisted
from the persist boundary onward — being a Content message, the
reasoning-only persist filter keeps it. -/
theorem agentRun_steering_persisted
    (script : Nat → List Msg → StreamCfg → RoundOutcome)
    (stored : List Msg) (sysPrompt input : String)
    (h : (agentRun .openai script stored sysPrompt input).trace.length = agentRoundsMax) :
    (∃ l ∈ (agentRun .openai script stored sysPrompt input).trace,
        Msg.content "system" toolCallLimitReachedPrompt ∈ l.request)
    ∧ Msg.content "system" toolCallLimitReachedPrompt
        ∈ (agentRun .openai script stored sysPrompt input).persisted := by
  simp only [agentRun] at h ⊢
  have hmain := runRounds_openai_steering script agentRoundsMax 0
    ((if stored.length = 0 then [Msg.content "system" sysPrompt] else stored)
      ++ [Msg.content "user" input]) {} (by decide) (by decide) h
  refine ⟨hmain.1, ?_⟩
  rw [persistFilter_eq_filter, List.mem_filter]
  refine ⟨?_, by decide⟩
  have hdrop := hmain.2
  have hle : stored.length ≤
      ((if stored.length = 0 then [Msg.content "system" sysPrompt] else stored)
        ++ [Msg.content "user" input]).length := by
    by_cases hs : stored.length = 0 <;> simp [hs]
  have heq : ((runRounds .openai script agentRoundsMax 0
        ((if stored.length = 0 then [Msg.content "system" sysPrompt] else stored)
          ++ [Msg.content "user" input]) {}).2.1).drop
          (((if stored.length = 0 then [Msg.content "system" sysPrompt] else stored)
            ++ [Msg.content "user" input]).length)
      = (((runRounds .openai script agentRoundsMax 0
          ((if stored.length = 0 then [Msg.content "system" sysPrompt] else stored)
            ++ [Msg.content "user" input]) {}).2.1).drop stored.length).drop
          ((((if stored.length = 0 then [Msg.content "system" sysPrompt] else stored)
            ++ [Msg.content "user" input]).length) - stored.length) := by
    rw [List.drop_drop]
    congr 1
    omega
  rw [heq] at hdrop
  exact List.drop_subset _ _ hdrop

set_option maxRecDepth 8192 in
/-- Witness for `agentRun_steering_persisted` at the concrete four-round
script and two-message stored history. -/
theorem agentRun_steering_persisted_witness :
    (∃ l ∈ (agentRun .openai scriptAllRounds storedTwo "sys" "go").trace,
        Msg.content "system" toolCallLimitReachedPrompt ∈ l.request)
    ∧ Msg.content "system" toolCallLimitReachedPrompt
        ∈ (agentRun .openai scriptAllRounds storedTwo "sys" "go").persisted :=
  agentRun_steering_persisted scriptAllRounds storedTwo "sys" "go" (by decide)

/-! ## The `EvResp` branch of `Agent.Run` (empty `Response.Messages`) -/

/-- Outcome of the `core.EvResp` branch of the event loop in `Agent.Run`:
either the branch indexes `resp.Messages[len(resp.Messages)-1]` out of
range (a Go runtime panic), or it runs through, appending the text of the
last message to the output buffer when that message is a Content. -/
inductive EvRespOutcome where
  | panics
  | ok (appendedText : String)
deriving DecidableEq, Repr

/-- The `core.EvResp` branch of `Agent.Run`: `lastMsg :=
resp.Messages[len(resp.Messages)-1]` (unconditional index), then
`lastMsg.AsContent()` decides whether text is written to the buffer. -/
def evRespBranch (resp : Response) : EvRespOutcome :=
  match resp.messages.getLast? with
  | none => .panics
  | some lastMsg =>
    match lastMsg with
    | .content _ text => .ok text
    | _ => .ok ""

/-- C10: the `EvResp` branch of `Agent.Run` is safe exactly when the
`FinalResponse` carries at least one message: with an empty message list it
panics (out-of-range index) instead of acting as a no-op, and with a
non-empty list it never panics. -/
theorem evRespBranch_panics_iff_empty (resp : Response) :
    (resp.messages = [] → evRespBranch resp = .panics)
    ∧ (resp.messages ≠ [] → evRespBranch resp ≠ .panics) := by
  constructor
  · intro h
    simp [evRespBranch, h]
  · intro h
    rcases List.eq_nil_or_concat resp.messages with h0 | ⟨as, a, ha⟩
    · exact absurd h0 h
    · simp only [evRespBranch, ha, List.getLast?_concat]
      cases a <;> simp

/-- Witness for `evRespBranch_panics_iff_empty`: a `FinalResponse` with no
messages panics; one with a single assistant Content message does not. -/
theorem evRespBranch_panics_iff_empty_witness :
    evRespBranch { messages := [] } = .panics
    ∧ evRespBranch { messages := [Msg.content "assistant" "hi"] } ≠ .panics :=
  ⟨(evRespBranch_panics_iff_empty { messages := [] }).1 rfl,
   (evRespBranch_panics_iff_empty { messages := [Msg.content "assistant" "hi"] }).2 (by decide)⟩

/-! ## Durable store (`agg/store_sqlite.go` over `agg/store_ephemeral.go`) -/

/-- A row of the `usage` relation: the persisted columns are input_tokens,
cached_tokens, output_tokens, reasoning_tokens and cost — there is no total
column. -/
structure DbUsageRow where
  input : Int := 0
  cached : Int := 0
  output : Int := 0
  reasoning : Int := 0
  cost : Int := 0
deriving DecidableEq, Repr

/-- State of a `SQLiteStore`: the two database relations keyed by session,
plus the embedded `EphemeralStore` cache (`m` and `u` maps; a missing key
reads as an empty list and a zero `Usage`, as in Go). A freshly opened
store has an empty cache and whatever the database file holds. -/
structure SQLiteState where
  dbMsgs : String → List Msg
  dbUsage : String → Option DbUsageRow
  cacheMsgs : String → List Msg
  cacheUsage : String → Usage

/-- `SQLiteStore.loadUsage`: read the usage row (no row yields a zero
`Usage`) and recompute Total as input+cached+output; the cost column is
taken as stored. -/
def SQLiteState.loadUsage (st : SQLiteState) (sessionID : String) : Usage :=
  match st.dbUsage sessionID with
  | none => {}
  | some r =>
    { input := r.input, cached := r.cached, output := r.output,
      reasoning := r.reasoning, cost := r.cost,
      total := r.input + r.cached + r.output }

/-- The `ON CONFLICT ... DO UPDATE` accumulation of `SQLiteStore.Extend`:
insert the row if the session has none, otherwise add every numeric
column. -/
def DbUsageRow.upsert (row : Option DbUsageRow) (u : Usage) : DbUsageRow :=
  match row with
  | none => ⟨u.input, u.cached, u.output, u.reasoning, u.cost⟩
  | some r => ⟨r.input + u.input, r.cached + u.cached, r.output + u.output,
      r.reasoning + u.reasoning, r.cost + u.cost⟩

/-- `SQLiteStore.Extend`: append the messages and upsert the usage row in
the database, then (after the successful commit) extend the ephemeral
cache the same way (`EphemeralStore.Extend` appends messages and
`Inc`-accumulates usage). -/
def SQLiteState.Extend (st : SQLiteState) (sessionID : String)
    (msgs : List Msg) (usage : Usage) : SQLiteState :=
  { dbMsgs := fun k => if k = sessionID then st.dbMsgs sessionID ++ msgs else st.dbMsgs k
    dbUsage := fun k => if k = sessionID
      then some (DbUsageRow.upsert (st.dbUsage sessionID) usage) else st.dbUsage k
    cacheMsgs := fun k => if k = sessionID then st.cacheMsgs sessionID ++ msgs else st.cacheMsgs k
    cacheUsage := fun k => if k = sessionID then (st.cacheUsage sessionID).inc usage
      else st.cacheUsage k }

/-- `SQLiteStore.Messages`: fast path returns the cached messages when the
cache holds a non-empty list for the session; otherwise load messages and
usage from the database and populate the cache with both (via the embedded
ephemeral store's `Extend`). Returns the messages together with the store
state after the call. -/
def SQLiteState.Messages (st : SQLiteState) (sessionID : String) :
    List Msg × SQLiteState :=
  let cached := st.cacheMsgs sessionID
  if cached.length > 0 then (cached, st)
  else
    let msgs := st.dbMsgs sessionID
    let usage := st.loadUsage sessionID
    (msgs,
      { st with
        cacheMsgs := fun k => if k = sessionID then st.cacheMsgs sessionID ++ msgs
          else st.cacheMsgs k
        cacheUsage := fun k => if k = sessionID then (st.cacheUsage sessionID).inc usage
          else st.cacheUsage k })

/-- `SQLiteStore.Usage`: fast path returns the cached usage when it looks
populated (non-zero Input or Cost); otherwise load from the database
WITHOUT populating the cache. -/
def SQLiteState.Usage (st : SQLiteState) (sessionID : String) : Usage :=
  let u := st.cacheUsage sessionID
  if u.input ≠ 0 ∨ u.cost ≠ 0 then u
  else st.loadUsage sessionID

/-- A database holding one prior message and a matching usage row for
session "s", with a cold cache — the state of a reopened store. -/
def reopenedState : SQLiteState :=
  { dbMsgs := fun k => if k = "s" then [Msg.content "user" "hi"] else []
    dbUsage := fun k => if k = "s" then some ⟨10, 0, 5, 0, 0⟩ else none
    cacheMsgs := fun _ => []
    cacheUsage := fun _ => {} }

/-- C4 (code bug): on a reopened store whose database already holds a
message for the session, calling `Extend` before any `Messages` call seeds
the cache with only the new messages; the following `Messages` fast path
then returns just the appended messages, NOT the union of the prior
persisted state and the appended ones — even though the database does hold
the full union in insertion order. -/
theorem extend_then_messages_misses_prior_state :
    ((reopenedState.Extend "s" [Msg.content "assistant" "yo"] {}).Messages "s").1
      = [Msg.content "assistant" "yo"]
    ∧ (reopenedState.Extend "s" [Msg.content "assistant" "yo"] {}).dbMsgs "s"
      = [Msg.content "user" "hi", Msg.content "assistant" "yo"]
    ∧ ((reopenedState.Extend "s" [Msg.content "assistant" "yo"] {}).Messages "s").1
      ≠ (reopenedState.Extend "s" [Msg.content "assistant" "yo"] {}).dbMsgs "s" := by
  refine ⟨by decide, by decide, by decide⟩

/-- The load-time invariant of the spec: Total equals Input+Cached+Output. -/
def usageTotalConsistent (u : Usage) : Prop :=
  u.total = u.input + u.cached + u.output

/-- Consistency of every usage entry of the write-through cache. -/
def cacheUsageConsistent (st : SQLiteState) : Prop :=
  ∀ k, usageTotalConsistent (st.cacheUsage k)

/-- Accumulating two consistent usages yields a consistent usage. -/
theorem usageTotalConsistent_inc {u v : Usage}
    (hu : usageTotalConsistent u) (hv : usageTotalConsistent v) :
    usageTotalConsistent (u.inc v) := by
  unfold usageTotalConsistent at *
  simp only [Usage.inc]
  omega

/-- A fresh, fully empty store state (empty database file, cold cache). -/
def freshState : SQLiteState :=
  { dbMsgs := fun _ => []
    dbUsage := fun _ => none
    cacheMsgs := fun _ => []
    cacheUsage := fun _ => {} }

/-- Counterexample to C5: `Extend` a fresh durable store with a usage whose
Total is NOT input+cached+output (here Total=1 but input+cached+output=2);
the following `Usage` read is answered by the write-through cache, which
returns the accumulated Total as given — it is not recomputed, so the
claimed identity fails on this load path. -/
theorem usage_total_cache_counterexample :
    (freshState.Extend "s" [] { input := 1, cached := 1, output := 0, total := 1 }).Usage "s"
      = { input := 1, cached := 1, output := 0, total := 1 }
    ∧ ¬ usageTotalConsistent
        ((freshState.Extend "s" [] { input := 1, cached := 1, output := 0, total := 1 }).Usage "s") := by
  refine ⟨by decide, ?_⟩
  intro h
  rw [show (freshState.Extend "s" [] { input := 1, cached := 1, output := 0, total := 1 }).Usage "s"
      = { input := 1, cached := 1, output := 0, total := 1 } from by decide] at h
  simp [usageTotalConsistent] at h

/-- C5 (amended): on every database load path `Usage.Total` is recomputed
as Input+Cached+Output (row present or not), so a `Usage` call answered
from the database satisfies the identity unconditionally; a `Usage` call
answered from the ephemeral cache satisfies it provided every cache entry
does — and that cache invariant is preserved by `Messages` and by every
`Extend` whose usage argument itself satisfies the identity (cache totals
are accumulated as given, never recomputed). -/
theorem usage_total_recomputed_on_load
    (st : SQLiteState) (sessionID : String) (msgs : List Msg) (u : Usage) :
    usageTotalConsistent (st.loadUsage sessionID)
    ∧ (cacheUsageConsistent st → usageTotalConsistent (st.Usage sessionID))
    ∧ (cacheUsageConsistent st → usageTotalConsistent u →
        cacheUsageConsistent (st.Extend sessionID msgs u))
    ∧ (cacheUsageConsistent st → cacheUsageConsistent ((st.Messages sessionID).2)) := by
  have hload : ∀ sid, usageTotalConsistent (st.loadUsage sid) := by
    intro sid
    unfold SQLiteState.loadUsage usageTotalConsistent
    match st.dbUsage sid with
    | none => simp
    | some r => simp
  have husage : st.Usage sessionID
      = if (st.cacheUsage sessionID).input ≠ 0 ∨ (st.cacheUsage sessionID).cost ≠ 0
        then st.cacheUsage sessionID else st.loadUsage sessionID := rfl
  have hmsg : (st.Messages sessionID).2
      = if (st.cacheMsgs sessionID).length > 0 then st
        else { st with
          cacheMsgs := fun k => if k = sessionID
            then st.cacheMsgs sessionID ++ st.dbMsgs sessionID else st.cacheMsgs k
          cacheUsage := fun k => if k = sessionID
            then (st.cacheUsage sessionID).inc (st.loadUsage sessionID)
            else st.cacheUsage k } := by
    unfold SQLiteState.Messages
    by_cases h : (st.cacheMsgs sessionID).length > 0 <;> simp [h]
  refine ⟨hload sessionID, ?_, ?_, ?_⟩
  · intro hc
    rw [husage]
    split
    · exact hc sessionID
    · exact hload sessionID
  · intro hc hu
    intro k
    simp only [SQLiteState.Extend]
    split
    · exact usageTotalConsistent_inc (hc sessionID) hu
    · exact hc k
  · intro hc
    intro k
    rw [hmsg]
    split
    · exact hc k
    · simp only
      split
      · exact usageTotalConsistent_inc (hc sessionID) (hload sessionID)
      · exact hc k

/-- Witness for `usage_total_recomputed_on_load`: the fresh store's cache
is consistent, so a `Usage` read on it satisfies the identity; the
database-load conjunct holds on the reopened store. -/
theorem usage_total_recomputed_on_load_witness :
    usageTotalConsistent (reopenedState.loadUsage "s")
    ∧ usageTotalConsistent (freshState.Usage "s")
    ∧ cacheUsageConsistent
        (freshState.Extend "s" [] { input := 2, cached := 3, output := 4, total := 9 }) :=
  ⟨(usage_total_recomputed_on_load reopenedState "s" [] {}).1,
   (usage_total_recomputed_on_load freshState "s" [] {}).2.1 (fun _ => rfl),
   (usage_total_recomputed_on_load freshState "s" []
      { input := 2, cached := 3, output := 4, total := 9 }).2.2.1 (fun _ => rfl) rfl⟩

/-! ## Anthropic messages-style adapter (`agg/anthropic/stream.go`, `agg/anthropic/model.go`) -/

/-- The `usage` JSON record of Anthropic SSE events: input_tokens,
cache_creation_input_tokens, cache_read_input_tokens, output_tokens. -/
structure AUsage where
  inTok : Int := 0
  cacheWrite : Int := 0
  cacheRead : Int := 0
  outTok : Int := 0
deriving DecidableEq, Repr

/-- Per-model dollar rates (units of 10^-9 USD per token) for the four
billed counters, from the current `modelCosts` table of
`agg/anthropic/model.go`. -/
structure ModelCostA where
  inTok : Int
  cacheWrite : Int
  cacheRead : Int
  outTok : Int
deriving DecidableEq, Repr

/-- The `modelCosts` map of `agg/anthropic/model.go` (the snapshot whose
`usage` struct matches the stream code: rates for In, InCacheWrite,
InCacheRead and Out). -/
def anthropicModelCosts : String → Option ModelCostA
  | "claude-haiku-4-5-20251001" => some ⟨1000, 1250, 100, 5000⟩
  | "claude-sonnet-4-5-20250929" => some ⟨3000, 3750, 300, 15000⟩
  | "claude-opus-4-5-20251101" => some ⟨5000, 6250, 500, 25000⟩
  | _ => none

/-- `costFromUsage` of `agg/anthropic/model.go`: per-model rates applied to
the four reported counters; an unknown model id logs and returns 0. -/
def costFromUsage (model : String) (u : AUsage) : Int :=
  match anthropicModelCosts model with
  | none => 0
  | some c =>
    c.inTok * u.inTok + c.cacheWrite * u.cacheWrite
      + c.cacheRead * u.cacheRead + c.outTok * u.outTok

/-- A decoded Anthropic SSE frame (the `sse` struct of the stream code):
the discriminator plus the fields of the nested records that the code
reads; absent JSON fields decode to zero values, as in Go. -/
structure Asse where
  type : String := ""
  messageModel : String := ""
  usage : AUsage := {}
  cbType : String := ""
  cbId : String := ""
  cbName : String := ""
  deltaType : String := ""
  deltaText : String := ""
  deltaThinking : String := ""
  deltaSignature : String := ""
  deltaPartialArgs : String := ""
deriving DecidableEq, Repr

/-- Control flow after dispatching one raw event: continue the loop, stop
(break and emit the final response), return with an error (no final
response), die from a Go runtime panic (deferred closes still run), or die
from `log.Fatalf` (process exits, deferred closes do NOT run). -/
inductive StepFlow where
  | next
  | stop
  | abortErr
  | goPanic (reason : String)
  | logFatal (reason : String)
deriving DecidableEq, Repr

/-- Result of `dispatchRawEvent`: events sent so far, the updated
in-progress response, the remaining send budget, and the control flow. -/
structure DispatchResult where
  events : List Event
  resp : Response
  budget : Nat
  flow : StepFlow
deriving DecidableEq, Repr

/-- `sendEvent` models `select { case <-ctx.Done() ...; case out <- ev
... }` through a send budget: with a positive budget the send succeeds and
one unit is consumed; with an exhausted budget the context is done and the
send fails. -/
def sendBudget : Nat → Option Nat
  | 0 => none
  | b + 1 => some b

/-- Replace the last element of a non-empty list (`lastMsg` is mutated
through the `*Msg` pointer in Go). -/
def setLastMsg (l : List Msg) (m : Msg) : List Msg :=
  l.dropLast ++ [m]

/-- `Stream.dispatchRawEvent` of the Anthropic adapter.  The JSON decode of
the frame is abstracted: `none` is a `json.Unmarshal` failure.  Unknown
event types, content-block types and delta types only print and continue.
A `content_block_delta` whose delta type does not match the trailing
in-progress message calls `log.Fatalf`; indexing the trailing message of an
empty in-progress response is a Go runtime panic. -/
def dispatchRawEvent (modelID : String) (frame : Option Asse)
    (resp : Response) (budget : Nat) : DispatchResult :=
  match frame with
  | none =>
    match sendBudget budget with
    | some b => ⟨[Event.error "json unmarshal failure"], resp, b, .abortErr⟩
    | none => ⟨[], resp, 0, .abortErr⟩
  | some ev =>
    if ev.type = "ping" then ⟨[], resp, budget, .next⟩
    else if ev.type = "message_start" then
      ⟨[], { resp with model := ev.messageModel }, budget, .next⟩
    else if ev.type = "message_delta" then
      ⟨[], { resp with usage :=
        { input := ev.usage.inTok
          cached := ev.usage.cacheRead
          output := ev.usage.outTok
          reasoning := resp.usage.reasoning
          total := ev.usage.inTok + ev.usage.outTok
          cost := costFromUsage modelID ev.usage } }, budget, .next⟩
    else if ev.type = "message_stop" then ⟨[], resp, budget, .stop⟩
    else if ev.type = "content_block_start" then
      if ev.cbType = "thinking" then
        ⟨[], { resp with messages := resp.messages ++ [Msg.reasoning "" ""] }, budget, .next⟩
      else if ev.cbType = "text" then
        ⟨[], { resp with messages := resp.messages ++ [Msg.content "assistant" ""] }, budget, .next⟩
      else if ev.cbType = "tool_use" then
        ⟨[], { resp with messages := resp.messages ++ [Msg.toolCall ev.cbId ev.cbName ""] },
          budget, .next⟩
      else ⟨[], resp, budget, .next⟩
    else if ev.type = "content_block_delta" then
      match resp.messages.getLast? with
      | none => ⟨[], resp, budget, .goPanic "index out of range"⟩
      | some lastMsg =>
        if ev.deltaType = "thinking_delta" then
          match lastMsg with
          | .reasoning enc txt =>
            ⟨[], { resp with messages := setLastMsg resp.messages (Msg.reasoning enc (txt ++ ev.deltaThinking)) }, budget, .next⟩
          | _ => ⟨[], resp, budget,
              .logFatal "last message is not a reasoning message, but got a reasoning delta"⟩
        else if ev.deltaType = "signature_delta" then
          match lastMsg with
          | .reasoning enc txt =>
            ⟨[], { resp with messages := setLastMsg resp.messages (Msg.reasoning (enc ++ ev.deltaSignature) txt) }, budget, .next⟩
          | _ => ⟨[], resp, budget,
              .logFatal "last message is not a reasoning message, but got a reasoning delta"⟩
        else if ev.deltaType = "text_delta" then
          match sendBudget budget with
          | none => ⟨[], resp, 0, .abortErr⟩
          | some b =>
            match lastMsg with
            | .content role txt =>
              ⟨[Event.delta ev.deltaText], { resp with messages := setLastMsg resp.messages (Msg.content role (txt ++ ev.deltaText)) }, b, .next⟩
            | _ => ⟨[Event.delta ev.deltaText], resp, b,
                .logFatal "last message is not a content message, but got a text delta"⟩
        else if ev.deltaType = "input_json_delta" then
          match lastMsg with
          | .toolCall id name args =>
            ⟨[], { resp with messages := setLastMsg resp.messages (Msg.toolCall id name (args ++ ev.deltaPartialArgs)) }, budget, .next⟩
          | _ => ⟨[], resp, budget,
              .logFatal "last message is not a tool call message, but got a tool args delta"⟩
        else ⟨[], resp, budget, .next⟩
    else if ev.type = "content_block_stop" then
      match resp.messages.getLast? with
      | none => ⟨[], resp, budget, .goPanic "index out of range"⟩
      | some lastMsg =>
        match lastMsg with
        | .toolCall id name args =>
          match sendBudget budget with
          | none => ⟨[], resp, 0, .abortErr⟩
          | some b => ⟨[Event.toolCall id name args], resp, b, .next⟩
        | .reasoning _ txt =>
          match sendBudget budget with
          | none => ⟨[], resp, 0, .abortErr⟩
          | some b => ⟨[Event.deltaReason txt], resp, b, .next⟩
        | _ => ⟨[], resp, budget, .next⟩
    else ⟨[], resp, budget, .next⟩

/-- Strip trailing newline and carriage-return characters
(`strings.TrimRight(line, "\n\r")`). -/
def trimLineEnd (s : String) : String :=
  String.mk ((s.toList.reverse.dropWhile (fun c => c == '\n' || c == '\r')).reverse)

/-- Drop an expected prefix from a character list, or fail. -/
def dropPrefixChars : List Char → List Char → Option (List Char)
  | [], cs => some cs
  | _ :: _, [] => none
  | p :: ps, c :: cs => if c = p then dropPrefixChars ps cs else none

/-- The `strings.CutPrefix(line, "data:")` check of the SSE loop. -/
def cutDataPrefix (s : String) : Option String :=
  match dropPrefixChars "data:".toList s.toList with
  | some rest => some (String.mk rest)
  | none => none

/-- What a `Consume` invocation leaves behind: the events sent on the
channel, whether the deferred `close(out)` and body close ran, the budget
remaining when the reader first returned EOF (when that happened), and the
reason the process died when a Go panic or `log.Fatalf` killed it. -/
structure ConsumeRes where
  events : List Event
  closedChan : Bool
  closedBody : Bool
  eofBudget : Option Nat := none
  died : Option String := none
deriving DecidableEq, Repr

/-- Prefix events onto a consume result. -/
def ConsumeRes.withEvents (pre : List Event) (r : ConsumeRes) : ConsumeRes :=
  { r with events := pre ++ r.events }

/-- The error events the Anthropic EOF handling emits: `ReadString` yields
EOF, the code sends an `Error` event and loops, reading EOF again, until a
send fails because the context is done (budget exhausted). -/
def eofErrors : Nat → List Event
  | 0 => []
  | b + 1 => Event.error "EOF" :: eofErrors b

/-- `Stream.Consume` of the Anthropic adapter: accumulate `data:` fields
into a buffer, dispatch the buffer on each blank line, stop on
`message_stop` and emit the final response; EOF is treated as a read error
(an `Error` event per send the context still allows).  The deferred
`close(out)` and body close run on every return path; they do not run when
`log.Fatalf` exits the process. -/
def anthropicConsume (modelID : String) (decode : String → Option Asse) :
    List String → Nat → String → Response → ConsumeRes
  | [], budget, _, _ =>
    { events := eofErrors budget, closedChan := true, closedBody := true,
      eofBudget := some budget }
  | line :: rest, budget, buf, resp =>
    let l := trimLineEnd line
    if l = "" then
      if buf = "" then anthropicConsume modelID decode rest budget "" resp
      else
        let d := dispatchRawEvent modelID (decode buf) resp budget
        match d.flow with
        | .next => (anthropicConsume modelID decode rest d.budget "" d.resp).withEvents d.events
        | .stop =>
          match sendBudget d.budget with
          | some _ =>
            { events := d.events ++ [Event.resp d.resp], closedChan := true, closedBody := true }
          | none =>
            { events := d.events, closedChan := true, closedBody := true }
        | .abortErr => { events := d.events, closedChan := true, closedBody := true }
        | .goPanic r =>
          { events := d.events, closedChan := true, closedBody := true, died := some r }
        | .logFatal r =>
          { events := d.events, closedChan := false, closedBody := false, died := some r }
    else
      match cutDataPrefix l with
      | some dataBytes => anthropicConsume modelID decode rest budget (buf ++ dataBytes) resp
      | none => anthropicConsume modelID decode rest budget buf resp

/-! ## OpenAI responses-style adapter (`agg/openai/stream.go`, `agg/openai/model.go`) -/

/-- The OpenAI `usage` record: input tokens (cached included), the cached
subset, output tokens (reasoning included), and the reasoning subset. -/
structure OUsage where
  input : Int := 0
  cached : Int := 0
  output : Int := 0
  reasoningTok : Int := 0
deriving DecidableEq, Repr

/-- Per-model rates of `agg/openai/model.go` (`modelCosts`). -/
structure ModelCostO where
  inTok : Int
  cachedTok : Int
  outTok : Int
deriving DecidableEq, Repr

/-- The `modelCosts` map for the OpenAI models. -/
def openaiModelCosts : String → Option ModelCostO
  | "gpt-4.1" => some ⟨2000, 500, 8000⟩
  | "gpt-5-nano" => some ⟨50, 5, 400⟩
  | "gpt-5-mini" => some ⟨250, 25, 2000⟩
  | "gpt-5-pro" => some ⟨15000, 15000, 120000⟩
  | "gpt-5.1" => some ⟨1250, 125, 10000⟩
  | "gpt-5.2" => some ⟨1750, 175, 14000⟩
  | "gpt-5.2-pro" => some ⟨21000, 21000, 168000⟩
  | _ => none

/-- `costFromUsage` of `agg/openai/model.go`: regular input is reported
input minus the cached subset; a negative regular input is a programmer
error (`panic`, modelled as `none`); unknown models cost 0. -/
def openaiCostFromUsage (model : String) (u : OUsage) : Option Int :=
  match openaiModelCosts model with
  | none => some 0
  | some c =>
    if u.input - u.cached < 0 then none
    else some (c.inTok * (u.input - u.cached) + c.cachedTok * u.cached + c.outTok * u.output)

/-- An output item of the OpenAI responses API (the `item` struct): kind,
role, encrypted reasoning content, content parts (their text), function
call fields. -/
structure OItem where
  type : String := ""
  role : String := ""
  encrypted : String := ""
  content : List String := []
  arguments : String := ""
  callId : String := ""
  name : String := ""
deriving DecidableEq, Repr

/-- A decoded OpenAI SSE frame (the `eventRaw` struct): discriminator plus
the response object, the item, and the delta/text payloads. -/
structure ORaw where
  type : String := ""
  respModel : String := ""
  respOutput : List OItem := []
  respUsage : OUsage := {}
  item : OItem := {}
  delta : String := ""
  text : String := ""
deriving DecidableEq, Repr

/-- `toComMessages`: project the output items to core messages.  A
`message` item with other than exactly one content part, or an unknown item
type, is a programmer error (`panic`, modelled as `none`). -/
def toComMessages : List OItem → Option (List Msg)
  | [] => some []
  | item :: rest =>
    let head : Option Msg :=
      if item.type = "reasoning" then some (Msg.reasoning item.encrypted "")
      else if item.type = "message" then
        match item.content with
        | [text] => some (Msg.content item.role text)
        | _ => none
      else if item.type = "function_call" then
        some (Msg.toolCall item.callId item.name item.arguments)
      else none
    match head, toComMessages rest with
    | some m, some ms => some (m :: ms)
    | _, _ => none

/-- Flow of the OpenAI dispatch: keep consuming, return from `Consume`
(`shouldReturn = true`: decode failure, completed response, provider error
event, or a failed send), or die from a Go panic. -/
inductive OStepFlow where
  | next
  | stop
  | goPanic (reason : String)
deriving DecidableEq, Repr

/-- Result of the OpenAI `dispatchRawEvent`. -/
structure ODispatchResult where
  events : List Event
  budget : Nat
  flow : OStepFlow
deriving DecidableEq, Repr

/-- `Stream.dispatchRawEvent` of the OpenAI adapter: `none` frames model a
`json.Unmarshal` failure (an `Error` event, then return); `completed`
projects the response object to a `FinalResponse` event and returns; a done
`function_call` item emits a `ToolCall`; text deltas and completed
reasoning-summary chunks are forwarded; the provider's `error` event
becomes an `Error` event; everything else is a no-op. -/
def openaiDispatchRawEvent (modelID : String) (frame : Option ORaw)
    (budget : Nat) : ODispatchResult :=
  match frame with
  | none =>
    match sendBudget budget with
    | some b => ⟨[Event.error "json unmarshal failure"], b, .stop⟩
    | none => ⟨[], 0, .stop⟩
  | some ev =>
    if ev.type = "response.completed" then
      match openaiCostFromUsage modelID ev.respUsage with
      | none => ⟨[], budget, .goPanic "assumption violated: more cached tokens than input tokens"⟩
      | some cost =>
        match toComMessages ev.respOutput with
        | none => ⟨[], budget, .goPanic "bad output item"⟩
        | some msgs =>
          let responsePub : Response :=
            { model := ev.respModel
              usage :=
                { input := ev.respUsage.input
                  cached := ev.respUsage.cached
                  output := ev.respUsage.output
                  reasoning := ev.respUsage.reasoningTok
                  total := ev.respUsage.input + ev.respUsage.output
                  cost := cost }
              messages := msgs }
          match sendBudget budget with
          | none => ⟨[], 0, .stop⟩
          | some b => ⟨[Event.resp responsePub], b, .stop⟩
    else if ev.type = "response.output_item.done" then
      if ev.item.type = "function_call" then
        match sendBudget budget with
        | none => ⟨[], 0, .stop⟩
        | some b => ⟨[Event.toolCall ev.item.callId ev.item.name ev.item.arguments], b, .next⟩
      else ⟨[], budget, .next⟩
    else if ev.type = "response.output_text.delta" then
      match sendBudget budget with
      | none => ⟨[], 0, .stop⟩
      | some b => ⟨[Event.delta ev.delta], b, .next⟩
    else if ev.type = "response.reasoning_summary_text.done" then
      match sendBudget budget with
      | none => ⟨[], 0, .stop⟩
      | some b => ⟨[Event.deltaReason ev.text], b, .next⟩
    else if ev.type = "error" then
      match sendBudget budget with
      | some b => ⟨[Event.error "openai error"], b, .stop⟩
      | none => ⟨[], 0, .stop⟩
    else ⟨[], budget, .next⟩

/-- `Stream.Consume` of the OpenAI adapter: same SSE framing as the
Anthropic one, but EOF simply breaks the loop; any remaining buffered frame
is dispatched once more, then `Consume` returns (the deferred `close(out)`
and body close always run; a Go panic still runs them). -/
def openaiConsume (modelID : String) (decode : String → Option ORaw) :
    List String → Nat → String → ConsumeRes
  | [], budget, buf =>
    if buf = "" then
      { events := [], closedChan := true, closedBody := true, eofBudget := some budget }
    else
      let d := openaiDispatchRawEvent modelID (decode buf) budget
      match d.flow with
      | .goPanic r =>
        { events := d.events, closedChan := true, closedBody := true,
          eofBudget := some budget, died := some r }
      | _ =>
        { events := d.events, closedChan := true, closedBody := true,
          eofBudget := some budget }
  | line :: rest, budget, buf =>
    let l := trimLineEnd line
    if l = "" then
      if buf = "" then openaiConsume modelID decode rest budget ""
      else
        let d := openaiDispatchRawEvent modelID (decode buf) budget
        match d.flow with
        | .next => (openaiConsume modelID decode rest d.budget "").withEvents d.events
        | .stop => { events := d.events, closedChan := true, closedBody := true }
        | .goPanic r =>
          { events := d.events, closedChan := true, closedBody := true, died := some r }
    else
      match cutDataPrefix l with
      | some dataBytes => openaiConsume modelID decode rest budget (buf ++ dataBytes)
      | none => openaiConsume modelID decode rest budget buf

/-- Unless `log.Fatalf` killed the process, the Anthropic `Consume` always
runs its deferred `close(out)` and body close. -/
theorem anthropicConsume_closes (modelID : String) (adec : String → Option Asse) :
    ∀ (lines : List String) (budget : Nat) (buf : String) (resp : Response),
    (anthropicConsume modelID adec lines budget buf resp).died = none →
    (anthropicConsume modelID adec lines budget buf resp).closedChan = true
      ∧ (anthropicConsume modelID adec lines budget buf resp).closedBody = true := by
  intro lines
  induction lines with
  | nil => intro budget buf resp _; exact ⟨rfl, rfl⟩
  | cons line rest ih =>
    intro budget buf resp hdied
    simp only [anthropicConsume] at hdied ⊢
    by_cases hl : trimLineEnd line = ""
    · simp only [if_pos hl] at hdied ⊢
      by_cases hb : buf = ""
      · simp only [if_pos hb] at hdied ⊢
        exact ih budget "" resp hdied
      · simp only [if_neg hb] at hdied ⊢
        rcases hflow : (dispatchRawEvent modelID (adec buf) resp budget).flow with _ | _ | _ | r | r
          <;> simp only [hflow] at hdied ⊢
        · exact (ih _ _ _ (by simpa [ConsumeRes.withEvents] using hdied)).imp
            (fun h => by simpa [ConsumeRes.withEvents] using h)
            (fun h => by simpa [ConsumeRes.withEvents] using h)
        · rcases hsb : sendBudget (dispatchRawEvent modelID (adec buf) resp budget).budget
            with _ | b <;> simp [hsb]
        · exact ⟨trivial, trivial⟩
        · exact ⟨trivial, trivial⟩
        · simp at hdied
    · simp only [if_neg hl] at hdied ⊢
      rcases hcut : cutDataPrefix (trimLineEnd line) with _ | dataBytes
        <;> simp only [hcut] at hdied ⊢
      · exact ih budget buf resp hdied
      · exact ih budget (buf ++ dataBytes) resp hdied

/-- When the Anthropic `Consume` reaches EOF with at least one send still
allowed by the context, an `Error` event is on the channel. -/
theorem anthropicConsume_eof_emits_error (modelID : String) (adec : String → Option Asse) :
    ∀ (lines : List String) (budget : Nat) (buf : String) (resp : Response) (b : Nat),
    (anthropicConsume modelID adec lines budget buf resp).eofBudget = some b → 1 ≤ b →
    Event.error "EOF" ∈ (anthropicConsume modelID adec lines budget buf resp).events := by
  intro lines
  induction lines with
  | nil =>
    intro budget buf resp b heof hb
    simp only [anthropicConsume, Option.some.injEq] at heof ⊢
    subst heof
    cases budget with
    | zero => omega
    | succ n => simp [eofErrors]
  | cons line rest ih =>
    intro budget buf resp b heof hb
    simp only [anthropicConsume] at heof ⊢
    by_cases hl : trimLineEnd line = ""
    · simp only [if_pos hl] at heof ⊢
      by_cases hb2 : buf = ""
      · simp only [if_pos hb2] at heof ⊢
        exact ih budget "" resp b heof hb
      · simp only [if_neg hb2] at heof ⊢
        rcases hflow : (dispatchRawEvent modelID (adec buf) resp budget).flow with _ | _ | _ | r | r
          <;> simp only [hflow] at heof ⊢
        · have := ih _ _ _ b (by simpa [ConsumeRes.withEvents] using heof) hb
          simp only [ConsumeRes.withEvents, List.mem_append]
          exact Or.inr this
        · rcases hsb : sendBudget (dispatchRawEvent modelID (adec buf) resp budget).budget
            with _ | n <;> simp [hsb] at heof
        · simp at heof
        · simp at heof
        · simp at heof
    · simp only [if_neg hl] at heof ⊢
      rcases hcut : cutDataPrefix (trimLineEnd line) with _ | dataBytes
        <;> simp only [hcut] at heof ⊢
      · exact ih budget buf resp b heof hb
      · exact ih budget (buf ++ dataBytes) resp b heof hb

/-- The OpenAI `Consume` runs its deferred `close(out)` and body close on
every exit path, a Go panic included. -/
theorem openaiConsume_closes (modelID : String) (odec : String → Option ORaw) :
    ∀ (lines : List String) (budget : Nat) (buf : String),
    (openaiConsume modelID odec lines budget buf).closedChan = true
      ∧ (openaiConsume modelID odec lines budget buf).closedBody = true := by
  intro lines
  induction lines with
  | nil =>
    intro budget buf
    simp only [openaiConsume]
    by_cases hb : buf = ""
    · simp [hb]
    · simp only [if_neg hb]
      rcases hflow : (openaiDispatchRawEvent modelID (odec buf) budget).flow with _ | _ | r
        <;> simp only [hflow] <;> exact ⟨trivial, trivial⟩
  | cons line rest ih =>
    intro budget buf
    simp only [openaiConsume]
    by_cases hl : trimLineEnd line = ""
    · simp only [if_pos hl]
      by_cases hb : buf = ""
      · simp only [if_pos hb]
        exact ih budget ""
      · simp only [if_neg hb]
        rcases hflow : (openaiDispatchRawEvent modelID (odec buf) budget).flow with _ | _ | r
          <;> simp only [hflow]
        · exact (ih _ _).imp
            (fun h => by simpa [ConsumeRes.withEvents] using h)
            (fun h => by simpa [ConsumeRes.withEvents] using h)
        · exact ⟨trivial, trivial⟩
        · exact ⟨trivial, trivial⟩
    · simp only [if_neg hl]
      rcases hcut : cutDataPrefix (trimLineEnd line) with _ | dataBytes
        <;> simp only [hcut]
      · exact ih budget buf
      · exact ih budget (buf ++ dataBytes)

/-- A decode oracle that parses every frame as a text delta. -/
def oDecodeDelta : String → Option ORaw :=
  fun _ => some { type := "response.output_text.delta", delta := "hi" }

/-- Counterexample to C6: the OpenAI `Consume` hits EOF before any
completion event (the stream carried one text-delta frame and then ended),
yet it emits NO `Error` event — it closes the channel silently, because the
EOF branch simply breaks out of the read loop. -/
theorem openai_eof_no_error_counterexample :
    openaiConsume "gpt-5.1" oDecodeDelta ["data: X", ""] 5 ""
      = { events := [Event.delta "hi"], closedChan := true, closedBody := true,
          eofBudget := some 4 }
    ∧ (openaiConsume "gpt-5.1" oDecodeDelta ["data: X", ""] 5 "").events.countP
        Event.isError = 0 := by
  refine ⟨by decide, by decide⟩

/-- C6 (amended): both adapters run their deferred channel close on every
return path (for the Anthropic adapter, unless `log.Fatalf` exits the
process; a Go panic still closes); on EOF before the completion event the
Anthropic `Consume` emits an `Error` event (whenever the context still
allows a send) and terminates once the context is cancelled, while the
OpenAI `Consume` emits no event for the EOF itself — a bare EOF yields an
empty event list and a closed channel. -/
theorem consume_close_and_eof_behavior (modelID : String)
    (adec : String → Option Asse) (odec : String → Option ORaw) :
    (∀ (lines : List String) (budget : Nat) (buf : String) (resp : Response),
      (anthropicConsume modelID adec lines budget buf resp).died = none →
      (anthropicConsume modelID adec lines budget buf resp).closedChan = true
        ∧ (anthropicConsume modelID adec lines budget buf resp).closedBody = true)
    ∧ (∀ (lines : List String) (budget : Nat) (buf : String),
      (openaiConsume modelID odec lines budget buf).closedChan = true
        ∧ (openaiConsume modelID odec lines budget buf).closedBody = true)
    ∧ (∀ (lines : List String) (budget : Nat) (buf : String) (resp : Response) (b : Nat),
      (anthropicConsume modelID adec lines budget buf resp).eofBudget = some b → 1 ≤ b →
      Event.error "EOF" ∈ (anthropicConsume modelID adec lines budget buf resp).events)
    ∧ (∀ budget : Nat, openaiConsume modelID odec [] budget ""
        = { events := [], closedChan := true, closedBody := true, eofBudget := some budget }) :=
  ⟨anthropicConsume_closes modelID adec,
   openaiConsume_closes modelID odec,
   anthropicConsume_eof_emits_error modelID adec,
   fun _ => rfl⟩

/-- Witness for `consume_close_and_eof_behavior` on concrete streams: an
Anthropic stream that ends right away closes the channel and carries an
`Error` event; a bare OpenAI EOF closes silently. -/
theorem consume_close_and_eof_behavior_witness :
    ((anthropicConsume "claude-haiku-4-5-20251001" (fun _ => none) [] 3 "" {}).closedChan = true
      ∧ (anthropicConsume "claude-haiku-4-5-20251001" (fun _ => none) [] 3 "" {}).closedBody = true)
    ∧ ((openaiConsume "gpt-5.1" oDecodeDelta [] 3 "").closedChan = true
      ∧ (openaiConsume "gpt-5.1" oDecodeDelta [] 3 "").closedBody = true)
    ∧ Event.error "EOF" ∈ (anthropicConsume "claude-haiku-4-5-20251001" (fun _ => none) [] 3 "" {}).events
    ∧ openaiConsume "gpt-5.1" oDecodeDelta [] 7 ""
        = { events := [], closedChan := true, closedBody := true, eofBudget := some 7 } :=
  ⟨(consume_close_and_eof_behavior "claude-haiku-4-5-20251001" (fun _ => none) oDecodeDelta).1
      [] 3 "" {} rfl,
   (consume_close_and_eof_behavior "gpt-5.1" (fun _ => none) oDecodeDelta).2.1 [] 3 "",
   (consume_close_and_eof_behavior "claude-haiku-4-5-20251001" (fun _ => none) oDecodeDelta).2.2.1
      [] 3 "" {} 3 rfl (by decide),
   (consume_close_and_eof_behavior "gpt-5.1" (fun _ => none) oDecodeDelta).2.2.2 7⟩

/-- C7 evaluation at the failing input: a `content_block_delta` carrying a
`thinking_delta` while the trailing in-progress message is a Content makes
`dispatchRawEvent` call `log.Fatalf` — the process dies, no `Error` event
is sent and the channel is never closed; a frame that fails JSON decoding,
by contrast, is surfaced as a single `Error` event followed by the
error-return that closes the stream. -/
theorem mismatched_delta_aborts_process :
    dispatchRawEvent "claude-haiku-4-5-20251001"
        (some { type := "content_block_delta", deltaType := "thinking_delta",
                deltaThinking := "x" })
        { messages := [Msg.content "assistant" "hi"] } 5
      = ⟨[], { messages := [Msg.content "assistant" "hi"] }, 5,
          .logFatal "last message is not a reasoning message, but got a reasoning delta"⟩
    ∧ dispatchRawEvent "claude-haiku-4-5-20251001" none
        { messages := [Msg.content "assistant" "hi"] } 5
      = ⟨[Event.error "json unmarshal failure"],
          { messages := [Msg.content "assistant" "hi"] }, 4, .abortErr⟩ := by
  refine ⟨by decide, by decide⟩

/-- C8: on a `message_delta` event the in-progress response's usage
counters are overwritten with the reported values — Input from
input_tokens, Cached from cache_read_input_tokens, Output from
output_tokens, Total recomputed as input+output — and Cost is the
per-model rates applied over the four reported counters (in, cache_write,
cache_read, out). -/
theorem message_delta_overwrites_usage_and_cost
    (modelID : String) (c : ModelCostA) (hc : anthropicModelCosts modelID = some c)
    (ev : Asse) (hev : ev.type = "message_delta") (resp : Response) (budget : Nat) :
    dispatchRawEvent modelID (some ev) resp budget
      = ⟨[], { resp with usage :=
          { input := ev.usage.inTok
            cached := ev.usage.cacheRead
            output := ev.usage.outTok
            reasoning := resp.usage.reasoning
            total := ev.usage.inTok + ev.usage.outTok
            cost := c.inTok * ev.usage.inTok + c.cacheWrite * ev.usage.cacheWrite
              + c.cacheRead * ev.usage.cacheRead + c.outTok * ev.usage.outTok } },
          budget, .next⟩ := by
  simp [dispatchRawEvent, hev, costFromUsage, hc]

/-- Witness for `message_delta_overwrites_usage_and_cost` on the Haiku
model with concrete reported counters. -/
theorem message_delta_overwrites_usage_and_cost_witness :
    dispatchRawEvent "claude-haiku-4-5-20251001"
        (some { type := "message_delta",
                usage := { inTok := 100, cacheWrite := 7, cacheRead := 30, outTok := 50 } })
        { usage := { reasoning := 2 } } 5
      = ⟨[], { usage :=
          { input := 100, cached := 30, output := 50, reasoning := 2, total := 100 + 50,
            cost := 1000 * 100 + 1250 * 7 + 100 * 30 + 5000 * 50 } },
          5, .next⟩ :=
  message_delta_overwrites_usage_and_cost "claude-haiku-4-5-20251001"
    ⟨1000, 1250, 100, 5000⟩ rfl
    { type := "message_delta",
      usage := { inTok := 100, cacheWrite := 7, cacheRead := 30, outTok := 50 } }
    rfl { usage := { reasoning := 2 } } 5

/-! ## Anthropic request flattening (`Model.fromCoreMsgs`) -/

/-- A wire content block (the `msgContent` struct): discriminator plus the
fields of the block kinds, and whether the ephemeral cache-control marker
has been attached. -/
structure MsgContent where
  type : String
  text : String := ""
  signature : String := ""
  thinking : String := ""
  id : String := ""
  name : String := ""
  args : String := ""
  toolUseId : String := ""
  output : String := ""
  cacheCtrl : Bool := false
deriving DecidableEq, Repr

/-- `newMsgText`. -/
def newMsgText (text : String) : MsgContent :=
  { type := "text", text := text }

/-- `newMsgReason`. -/
def newMsgReason (signature thinking : String) : MsgContent :=
  { type := "thinking", signature := signature, thinking := thinking }

/-- `newMsgToolUse`. -/
def newMsgToolUse (id name args : String) : MsgContent :=
  { type := "tool_use", id := id, name := name, args := args }

/-- `newMsgToolResult`. -/
def newMsgToolResult (toolUseID output : String) : MsgContent :=
  { type := "tool_result", toolUseId := toolUseID, output := output }

/-- A wire message (the `msg` struct): role plus content blocks. -/
structure WireMsg where
  role : String
  content : List MsgContent
deriving DecidableEq, Repr

/-- `lastMsg := r[len(r)-1]; lastMsg.Content = append(lastMsg.Content,
content)` — appending a block onto the trailing wire message; `none` is the
out-of-range panic on an empty slice. -/
def appendToLast (acc : List WireMsg) (b : MsgContent) : Option (List WireMsg) :=
  match acc.getLast? with
  | none => none
  | some w => some (acc.dropLast ++ [⟨w.role, w.content ++ [b]⟩])

/-- The loop of `Model.fromCoreMsgs`, carrying the extracted system prompt,
the `lastRole` tracker and the accumulated wire messages.  A system Content
sets the prompt when none is held yet (`sysPrompt == ""`) and panics
otherwise (`none`); Reasoning and ToolCall map to the assistant role,
ToolResult to the user role, any other Content to its own role; a message
whose mapped role equals `lastRole` is coalesced onto the trailing wire
message, otherwise a new wire message is appended. -/
def fromCoreMsgsLoop : String → String → List WireMsg → List Msg →
    Option (String × List WireMsg)
  | sysPrompt, _, acc, [] => some (sysPrompt, acc)
  | sysPrompt, lastRole, acc, m :: rest =>
    match m with
    | .reasoning enc txt =>
      if lastRole = "assistant" then
        match appendToLast acc (newMsgReason enc txt) with
        | none => none
        | some acc2 => fromCoreMsgsLoop sysPrompt lastRole acc2 rest
      else fromCoreMsgsLoop sysPrompt "assistant"
        (acc ++ [⟨"assistant", [newMsgReason enc txt]⟩]) rest
    | .content role txt =>
      if role = "system" then
        if sysPrompt = "" then fromCoreMsgsLoop txt lastRole acc rest
        else none
      else
        if lastRole = role then
          match appendToLast acc (newMsgText txt) with
          | none => none
          | some acc2 => fromCoreMsgsLoop sysPrompt lastRole acc2 rest
        else fromCoreMsgsLoop sysPrompt role (acc ++ [⟨role, [newMsgText txt]⟩]) rest
    | .toolCall id name args =>
      if lastRole = "assistant" then
        match appendToLast acc (newMsgToolUse id name args) with
        | none => none
        | some acc2 => fromCoreMsgsLoop sysPrompt lastRole acc2 rest
      else fromCoreMsgsLoop sysPrompt "assistant"
        (acc ++ [⟨"assistant", [newMsgToolUse id name args]⟩]) rest
    | .toolResult id result =>
      if lastRole = "user" then
        match appendToLast acc (newMsgToolResult id result) with
        | none => none
        | some acc2 => fromCoreMsgsLoop sysPrompt lastRole acc2 rest
      else fromCoreMsgsLoop sysPrompt "user"
        (acc ++ [⟨"user", [newMsgToolResult id result]⟩]) rest

/-- `Model.fromCoreMsgs`: run the loop from an empty state, then — when the
model is configured to cache — attach the ephemeral cache-control marker to
the last content block, panicking (`none`) if that block is a thinking
block or if there is no block at all. -/
def fromCoreMsgs (shouldCache : Bool) (msgs : List Msg) :
    Option (String × List WireMsg) :=
  match fromCoreMsgsLoop "" "" [] msgs with
  | none => none
  | some (sys, r) =>
    if shouldCache then
      match r.getLast? with
      | none => none
      | some lastMsg =>
        match lastMsg.content.getLast? with
        | none => none
        | some lastBlock =>
          if lastBlock.type = "thinking" then none
          else some (sys, r.dropLast
            ++ [⟨lastMsg.role, lastMsg.content.dropLast
                  ++ [{ lastBlock with cacheCtrl := true }]⟩])
    else some (sys, r)

/-- Spec-side role mapping: Reasoning, assistant Content and ToolCall map
to the assistant wire role; user Content and ToolResult map to the user
wire role (a Content keeps its own role). -/
def roleOfMsg : Msg → String
  | .reasoning _ _ => "assistant"
  | .content role _ => role
  | .toolCall _ _ _ => "assistant"
  | .toolResult _ _ => "user"

/-- Spec-side block mapping of one core message. -/
def blockOfMsg : Msg → MsgContent
  | .reasoning enc txt => newMsgReason enc txt
  | .content _ txt => newMsgText txt
  | .toolCall id name args => newMsgToolUse id name args
  | .toolResult id result => newMsgToolResult id result

/-- Is this a system Content message? -/
def isSystemMsg : Msg → Bool
  | .content role _ => role = "system"
  | _ => false

/-- Every Content message carries a role the `NewMsgContent` constructor
accepts. -/
def validContentRole : Msg → Bool
  | .content role _ => role = "system" || role = "user" || role = "assistant"
  | _ => true

/-- Modelled from the spec: group consecutive messages that map to the same
wire role into a single wire message whose content blocks are the
concatenation of the members' blocks, in order. -/
def coalesceSpec : List Msg → List WireMsg
  | [] => []
  | m :: rest =>
    match coalesceSpec rest with
    | [] => [⟨roleOfMsg m, [blockOfMsg m]⟩]
    | w :: ws =>
      if w.role = roleOfMsg m then ⟨w.role, blockOfMsg m :: w.content⟩ :: ws
      else ⟨roleOfMsg m, [blockOfMsg m]⟩ :: w :: ws

/-- Modelled from the spec: the flattened wire form — system messages are
extracted, the rest is coalesced by consecutive equal wire role. -/
def flattenSpec (msgs : List Msg) : List WireMsg :=
  coalesceSpec (msgs.filter (fun m => !isSystemMsg m))

/-- The system-prompt extraction of the loop, as a recursive function: the
first system Content with nonempty text wins (empty-text system prompts
leave the slot empty). -/
def extractSys : List Msg → String
  | [] => ""
  | m :: rest =>
    match m with
    | .content role txt => if role = "system" then (if txt = "" then extractSys rest else txt)
        else extractSys rest
    | _ => extractSys rest

/-- Whether the loop survives the system messages: `seen` is "a system
prompt is already held" (`sysPrompt != ""`); encountering a system Content
while one is held is the `multiple system messages` panic. -/
def sysOk : Bool → List Msg → Bool
  | _, [] => true
  | seen, m :: rest =>
    match m with
    | .content role txt =>
      if role = "system" then (if seen then false else sysOk (txt ≠ "") rest)
      else sysOk seen rest
    | _ => sysOk seen rest

/-- Counterexample to C9: a conversation whose first system message has
empty text followed by a second system message does NOT abort — the
`sysPrompt == ""` check treats the empty prompt as absent, so the second
system message is accepted and becomes the extracted prompt (which is also
not the first system Content of the history). -/
theorem second_system_message_not_aborting_counterexample :
    fromCoreMsgs false [Msg.content "system" "", Msg.content "system" "x"]
      = some ("x", [])
    ∧ (fromCoreMsgs false [Msg.content "system" "", Msg.content "system" "x"]).isSome
        = true := by
  refine ⟨by decide, by decide⟩

/-- The invariant the loop maintains between `lastRole` and the
accumulator: `lastRole` is the role of the trailing wire message, or `""`
when nothing has been emitted yet. -/
def lastRoleInv (lastRole : String) (acc : List WireMsg) : Prop :=
  match acc.getLast? with
  | none => lastRole = ""
  | some w => w.role = lastRole

/-- Merge an accumulator with an already-coalesced tail: when the tail's
first group carries the accumulator's trailing role, the two boundary
groups fuse into one. -/
def glueAt (lastRole : String) (acc ws : List WireMsg) : List WireMsg :=
  match ws with
  | [] => acc
  | w :: ws2 =>
    if w.role = lastRole then
      match acc.getLast? with
      | some l => acc.dropLast ++ [⟨l.role, l.content ++ w.content⟩] ++ ws2
      | none => w :: ws2
    else acc ++ (w :: ws2)

/-- One step of the spec-side coalescing. -/
def consCoalesce (r : String) (b : MsgContent) (ws : List WireMsg) : List WireMsg :=
  match ws with
  | [] => [⟨r, [b]⟩]
  | w :: ws2 => if w.role = r then ⟨w.role, b :: w.content⟩ :: ws2 else ⟨r, [b]⟩ :: w :: ws2

/-- `coalesceSpec` unfolds one message at a time through `consCoalesce`. -/
theorem coalesceSpec_cons (m : Msg) (rest : List Msg) :
    coalesceSpec (m :: rest) = consCoalesce (roleOfMsg m) (blockOfMsg m) (coalesceSpec rest) := by
  cases hw : coalesceSpec rest <;> simp [coalesceSpec, consCoalesce, hw]

/-- An empty accumulator glues to the coalesced tail itself. -/
theorem glueAt_nil_acc (ws : List WireMsg) : glueAt "" [] ws = ws := by
  cases ws with
  | nil => rfl
  | cons w ws2 =>
    simp only [glueAt]
    split <;> simp

/-- Coalescing step: appending the block onto the trailing wire message and
gluing the coalesced tail is the same as gluing the tail extended by the
block's group, when the trailing role matches. -/
theorem glueAt_coalesce (r : String) (b : MsgContent) (acc : List WireMsg) (l : WireMsg)
    (hl : acc.getLast? = some l) (hrole : l.role = r) (ws : List WireMsg) :
    glueAt r (acc.dropLast ++ [⟨l.role, l.content ++ [b]⟩]) ws
      = glueAt r acc (consCoalesce r b ws) := by
  cases ws with
  | nil =>
    simp only [glueAt, consCoalesce, hrole, if_pos, hl]
    simp
  | cons w ws2 =>
    by_cases hw : w.role = r
    · simp only [consCoalesce, if_pos hw, glueAt, hw, hrole, if_pos, hl,
        List.getLast?_concat, List.dropLast_concat]
      simp
    · simp only [consCoalesce, if_neg hw, glueAt, hw, hrole, if_pos, if_neg, hl]
      simp

/-- New-group step: starting a fresh wire message and gluing the coalesced
tail is the same as gluing the tail extended by the block's group, when the
trailing role does not match. -/
theorem glueAt_newGroup (lastRole r : String) (b : MsgContent) (acc : List WireMsg)
    (hne : r ≠ lastRole) (ws : List WireMsg) :
    glueAt r (acc ++ [⟨r, [b]⟩]) ws = glueAt lastRole acc (consCoalesce r b ws) := by
  cases ws with
  | nil =>
    simp only [glueAt, consCoalesce, if_neg hne]
  | cons w ws2 =>
    by_cases hw : w.role = r
    · simp only [consCoalesce, if_pos hw, glueAt, hw, if_pos, if_neg hne,
        List.getLast?_concat, List.dropLast_concat]
      simp
    · simp only [consCoalesce, if_neg hw, glueAt, hw, if_neg hne]
      simp [hw, hne]

/-- System-prompt bookkeeping of the loop as a standalone recursion:
whether the loop survives all system messages, given the prompt currently
held. -/
def sysOkFrom (cur : String) : List Msg → Bool
  | [] => true
  | m :: rest =>
    match m with
    | .content role txt =>
      if role = "system" then (if cur = "" then sysOkFrom txt rest else false)
      else sysOkFrom cur rest
    | _ => sysOkFrom cur rest

/-- The prompt the loop ends up holding, given the prompt currently held. -/
def extractSysFrom (cur : String) : List Msg → String
  | [] => cur
  | m :: rest =>
    match m with
    | .content role txt =>
      if role = "system" then
        (if cur = "" then extractSysFrom txt rest else extractSysFrom cur rest)
      else extractSysFrom cur rest
    | _ => extractSysFrom cur rest

/-- A held nonempty prompt never changes. -/
theorem extractSysFrom_of_ne (msgs : List Msg) :
    ∀ cur, cur ≠ "" → extractSysFrom cur msgs = cur := by
  induction msgs with
  | nil => intro cur _; rfl
  | cons m rest ih =>
    intro cur hcur
    cases m with
    | content role txt =>
      by_cases hr : role = "system"
      · simp only [extractSysFrom, if_pos hr, if_neg hcur]
        exact ih cur hcur
      · simp only [extractSysFrom, if_neg hr]
        exact ih cur hcur
    | reasoning enc txt => exact ih cur hcur
    | toolCall id name args => exact ih cur hcur
    | toolResult id result => exact ih cur hcur

/-- Starting with no prompt held, the loop extracts the first system
Content with nonempty text. -/
theorem extractSysFrom_nil_eq (msgs : List Msg) :
    extractSysFrom "" msgs = extractSys msgs := by
  induction msgs with
  | nil => rfl
  | cons m rest ih =>
    cases m with
    | content role txt =>
      by_cases hr : role = "system"
      · by_cases ht : txt = ""
        · simp only [extractSysFrom, extractSys, if_pos hr, ht]
          simpa using ih
        · simp only [extractSysFrom, extractSys, if_pos hr, if_neg ht]
          simpa using extractSysFrom_of_ne rest txt ht
      · simp only [extractSysFrom, extractSys, if_neg hr]
        exact ih
    | reasoning enc txt => exact ih
    | toolCall id name args => exact ih
    | toolResult id result => exact ih

/-- One non-system step of the loop, against the spec-side coalescing: the
coalesce-or-new-group branch of the loop agrees with gluing the one-step
coalesced tail, assuming the tail of the loop already agrees. -/
theorem loopStep_nonsystem (sp lr : String) (acc : List WireMsg) (rest : List Msg)
    (r : String) (b : MsgContent) (hrne : r ≠ "")
    (hinv : lastRoleInv lr acc)
    (hih : ∀ (lastRole : String) (acc2 : List WireMsg), lastRoleInv lastRole acc2 →
      fromCoreMsgsLoop sp lastRole acc2 rest
        = if sysOkFrom sp rest = true
          then some (extractSysFrom sp rest,
            glueAt lastRole acc2 (coalesceSpec (rest.filter (fun m => !isSystemMsg m))))
          else none) :
    (if lr = r then
      match appendToLast acc b with
      | none => none
      | some acc2 => fromCoreMsgsLoop sp lr acc2 rest
    else fromCoreMsgsLoop sp r (acc ++ [⟨r, [b]⟩]) rest)
      = if sysOkFrom sp rest = true
        then some (extractSysFrom sp rest,
          glueAt lr acc (consCoalesce r b (coalesceSpec (rest.filter (fun m => !isSystemMsg m)))))
        else none := by
  by_cases hlr : lr = r
  · rw [if_pos hlr]
    have hl : ∃ l, acc.getLast? = some l ∧ l.role = r := by
      unfold lastRoleInv at hinv
      cases hg : acc.getLast? with
      | none =>
        rw [hg] at hinv
        simp only at hinv
        exact absurd (hlr ▸ hinv.symm).symm hrne
      | some w =>
        rw [hg] at hinv
        simp only at hinv
        exact ⟨w, rfl, hlr ▸ hinv⟩
    obtain ⟨l, hg, hlrole⟩ := hl
    have happ : appendToLast acc b = some (acc.dropLast ++ [⟨l.role, l.content ++ [b]⟩]) := by
      simp [appendToLast, hg]
    rw [happ]
    have hinv2 : lastRoleInv lr (acc.dropLast ++ [⟨l.role, l.content ++ [b]⟩]) := by
      unfold lastRoleInv
      rw [List.getLast?_concat]
      simp only
      rw [hlrole, hlr]
    have hred : (match some (acc.dropLast ++ [⟨l.role, l.content ++ [b]⟩]) with
        | none => none
        | some acc2 => fromCoreMsgsLoop sp lr acc2 rest)
        = fromCoreMsgsLoop sp lr (acc.dropLast ++ [⟨l.role, l.content ++ [b]⟩]) rest := rfl
    rw [hred, hih lr _ hinv2]
    by_cases hok : sysOkFrom sp rest = true
    · rw [if_pos hok, if_pos hok]
      have := glueAt_coalesce r b acc l hg hlrole
        (coalesceSpec (rest.filter (fun m => !isSystemMsg m)))
      rw [hlr, this]
    · rw [if_neg hok, if_neg hok]
  · rw [if_neg hlr]
    have hinv2 : lastRoleInv r (acc ++ [⟨r, [b]⟩]) := by
      unfold lastRoleInv
      rw [List.getLast?_concat]
    rw [hih r _ hinv2]
    by_cases hok : sysOkFrom sp rest = true
    · rw [if_pos hok, if_pos hok]
      rw [glueAt_newGroup lr r b acc (fun h => hlr h.symm)]
    · rw [if_neg hok, if_neg hok]

/-- The loop of `fromCoreMsgs`, run from any properly-tracked state, is the
spec-side system extraction plus consecutive-role coalescing glued onto the
accumulator (and the multiple-system panic exactly when a system Content
arrives while a nonempty prompt is held). -/
theorem fromCoreMsgsLoop_spec :
    ∀ (msgs : List Msg) (sysPrompt lastRole : String) (acc : List WireMsg),
    msgs.all validContentRole = true →
    lastRoleInv lastRole acc →
    fromCoreMsgsLoop sysPrompt lastRole acc msgs
      = if sysOkFrom sysPrompt msgs = true
        then some (extractSysFrom sysPrompt msgs,
          glueAt lastRole acc (coalesceSpec (msgs.filter (fun m => !isSystemMsg m))))
        else none := by
  intro msgs
  induction msgs with
  | nil =>
    intro sp lr acc _ _
    simp [fromCoreMsgsLoop, sysOkFrom, extractSysFrom, coalesceSpec, glueAt]
  | cons m rest ih =>
    intro sp lr acc hall hinv
    simp only [List.all_cons, Bool.and_eq_true] at hall
    obtain ⟨hm, hrest⟩ := hall
    cases m with
    | reasoning enc txt =>
      have hL : fromCoreMsgsLoop sp lr acc (Msg.reasoning enc txt :: rest)
          = (if lr = "assistant" then
              match appendToLast acc (newMsgReason enc txt) with
              | none => none
              | some acc2 => fromCoreMsgsLoop sp lr acc2 rest
            else fromCoreMsgsLoop sp "assistant"
              (acc ++ [⟨"assistant", [newMsgReason enc txt]⟩]) rest) := rfl
      rw [hL, loopStep_nonsystem sp lr acc rest "assistant" (newMsgReason enc txt)
        (by decide) hinv (fun lr2 acc2 hinv2 => ih sp lr2 acc2 hrest hinv2)]
      simp only [sysOkFrom, extractSysFrom, List.filter_cons, isSystemMsg,
        Bool.not_false, if_true, coalesceSpec_cons, roleOfMsg, blockOfMsg]
    | toolCall id name args =>
      have hL : fromCoreMsgsLoop sp lr acc (Msg.toolCall id name args :: rest)
          = (if lr = "assistant" then
              match appendToLast acc (newMsgToolUse id name args) with
              | none => none
              | some acc2 => fromCoreMsgsLoop sp lr acc2 rest
            else fromCoreMsgsLoop sp "assistant"
              (acc ++ [⟨"assistant", [newMsgToolUse id name args]⟩]) rest) := rfl
      rw [hL, loopStep_nonsystem sp lr acc rest "assistant" (newMsgToolUse id name args)
        (by decide) hinv (fun lr2 acc2 hinv2 => ih sp lr2 acc2 hrest hinv2)]
      simp only [sysOkFrom, extractSysFrom, List.filter_cons, isSystemMsg,
        Bool.not_false, if_true, coalesceSpec_cons, roleOfMsg, blockOfMsg]
    | toolResult id result =>
      have hL : fromCoreMsgsLoop sp lr acc (Msg.toolResult id result :: rest)
          = (if lr = "user" then
              match appendToLast acc (newMsgToolResult id result) with
              | none => none
              | some acc2 => fromCoreMsgsLoop sp lr acc2 rest
            else fromCoreMsgsLoop sp "user"
              (acc ++ [⟨"user", [newMsgToolResult id result]⟩]) rest) := rfl
      rw [hL, loopStep_nonsystem sp lr acc rest "user" (newMsgToolResult id result)
        (by decide) hinv (fun lr2 acc2 hinv2 => ih sp lr2 acc2 hrest hinv2)]
      simp only [sysOkFrom, extractSysFrom, List.filter_cons, isSystemMsg,
        Bool.not_false, if_true, coalesceSpec_cons, roleOfMsg, blockOfMsg]
    | content role txt =>
      have hL : fromCoreMsgsLoop sp lr acc (Msg.content role txt :: rest)
          = (if role = "system" then
              (if sp = "" then fromCoreMsgsLoop txt lr acc rest else none)
            else
              if lr = role then
                match appendToLast acc (newMsgText txt) with
                | none => none
                | some acc2 => fromCoreMsgsLoop sp lr acc2 rest
              else fromCoreMsgsLoop sp role (acc ++ [⟨role, [newMsgText txt]⟩]) rest) := rfl
      by_cases hsysr : role = "system"
      · rw [hL, if_pos hsysr]
        by_cases hsp : sp = ""
        · rw [if_pos hsp, ih txt lr acc hrest hinv]
          simp only [sysOkFrom, extractSysFrom, List.filter_cons, isSystemMsg,
            if_pos hsysr, if_pos hsp]
          simp [hsysr, hsp]
        · rw [if_neg hsp]
          simp only [sysOkFrom, extractSysFrom, isSystemMsg, if_pos hsysr, if_neg hsp]
          simp [hsysr, hsp]
      · have hrne : role ≠ "" := by
          simp only [validContentRole, Bool.or_eq_true, decide_eq_true_eq] at hm
          rcases hm with (h | h) | h
          · exact absurd h hsysr
          · subst h; decide
          · subst h; decide
        rw [hL, if_neg hsysr,
          loopStep_nonsystem sp lr acc rest role (newMsgText txt) hrne hinv
            (fun lr2 acc2 hinv2 => ih sp lr2 acc2 hrest hinv2)]
        have hfilter : List.filter (fun m => !isSystemMsg m) (Msg.content role txt :: rest)
            = Msg.content role txt :: List.filter (fun m => !isSystemMsg m) rest := by
          simp [isSystemMsg, hsysr]
        have hsys2 : sysOkFrom sp (Msg.content role txt :: rest) = sysOkFrom sp rest := by
          simp [sysOkFrom, hsysr]
        have hex2 : extractSysFrom sp (Msg.content role txt :: rest) = extractSysFrom sp rest := by
          simp [extractSysFrom, hsysr]
        rw [hsys2, hex2, hfilter, coalesceSpec_cons]
        simp only [roleOfMsg, blockOfMsg]

/-- C9 (amended): flattening a conversation to the messages-style wire form
coalesces consecutive core messages that map to the same wire role into one
wire message by concatenating their content-block lists, and extracts at
most one system prompt: the first system Content with nonempty text becomes
the separate system field, system messages arriving while the extracted
prompt slot is still empty are absorbed without error, and a system message
arriving after a nonempty prompt was extracted is a programmer error
(abort).  Hypotheses: Content roles are ones the `NewMsgContent`
constructor accepts, and no system message follows a nonempty-text one. -/
theorem fromCoreMsgs_coalesces_and_extracts (msgs : List Msg)
    (hroles : msgs.all validContentRole = true)
    (hsys : sysOkFrom "" msgs = true) :
    fromCoreMsgs false msgs = some (extractSys msgs, flattenSpec msgs) := by
  have hloop := fromCoreMsgsLoop_spec msgs "" "" [] hroles rfl
  unfold fromCoreMsgs
  rw [hloop, if_pos hsys]
  simp [glueAt_nil_acc, extractSysFrom_nil_eq, flattenSpec]

/-- A conversation exercising every coalescing rule: a system prompt, a
user turn, then reasoning + assistant text + a tool call (one assistant
wire message), then a tool result (user wire message). -/
def convExample : List Msg :=
  [Msg.content "system" "be helpful",
   Msg.content "user" "hi",
   Msg.reasoning "enc" "hmm",
   Msg.content "assistant" "ok",
   Msg.toolCall "1" "f" "a",
   Msg.toolResult "1" "r"]

/-- Witness for `fromCoreMsgs_coalesces_and_extracts` on `convExample`. -/
theorem fromCoreMsgs_coalesces_and_extracts_witness :
    fromCoreMsgs false convExample = some (extractSys convExample, flattenSpec convExample) :=
  fromCoreMsgs_coalesces_and_extracts convExample (by decide) (by decide)
